import Mathlib

/-!
Verification of the Slack message-relay core of the repository
(src/ref/mintlify-slack-assistant): the markdown-to-Slack markup
transformer (src/utils/markdown.ts), the message cleaner and the
turn pipeline of SlackMessageHandler (src/handlers/slack.ts), and
the event-router admission rules (src/index.ts).

All JavaScript regular-expression rewrites are embedded as executable
scanners over `List Char`, faithful to the semantics of the source
regexes: global replacement scans left to right and resumes after each
match, a failed match attempt advances one character, `.` does not
match a newline, `^`/`$` with the `m` flag are line anchors (embedded
by per-line processing), the lookbehind `(?<!^)` without the `m` flag
excludes only the start of the whole string, and lazy quantifiers take
the shortest match.  Scanners that skip ahead after a match take a
fuel argument; fuel is instantiated with the length of the input list,
which bounds the number of steps since every step consumes at least
one character.
-/

set_option maxRecDepth 100000

/-- Does `pat` occur as a prefix of `l`? (Char-list version.) -/
def startsWithL (pat l : List Char) : Bool :=
  match pat, l with
  | [], _ => true
  | _ :: _, [] => false
  | p :: ps, c :: cs => p == c && startsWithL ps cs

/-- Does `pat` occur as a contiguous substring of `l`?
Embeds JavaScript `String.prototype.includes`. -/
def containsL (pat : List Char) : List Char → Bool
  | [] => pat.isEmpty
  | c :: rest => startsWithL pat (c :: rest) || containsL pat rest

/-- String-level substring test: `containsS s pat` is true when `pat`
occurs inside `s` (the order of arguments follows `s.includes(pat)`). -/
def containsS (s pat : String) : Bool := containsL pat.data s.data

/-- Split a character list at newline characters.  Embeds the line
structure used by `m`-flagged anchors `^`/`$` in the source regexes. -/
def splitNl : List Char → List (List Char)
  | [] => [[]]
  | '\n' :: rest => [] :: splitNl rest
  | c :: rest =>
    match splitNl rest with
    | [] => [[c]]
    | l :: ls => (c :: l) :: ls

/-- Rejoin lines with newline characters. -/
def joinLines : List (List Char) → List Char
  | [] => []
  | [l] => l
  | l :: ls => l ++ '\n' :: joinLines ls

/-- Apply a per-line rewrite to every line.  Faithful to a `gm` regex
whose pattern and replacement never contain a newline. -/
def mapLines (f : List Char → List Char) (l : List Char) : List Char :=
  joinLines ((splitNl l).map f)

/-! ## markdownToSlack (src/utils/markdown.ts), rule by rule -/

/-- Rule `**x** -> *x*`: regex `\*\*([^*]+)\*\*` replaced by `*$1*`,
global.  The content is one or more non-asterisk characters (newlines
allowed); a failed attempt advances one character. -/
def boldStarGo : Nat → List Char → List Char
  | 0, l => l
  | _ + 1, [] => []
  | fuel + 1, '*' :: '*' :: rest =>
    let content := rest.takeWhile (fun c => c != '*')
    let r2 := rest.dropWhile (fun c => c != '*')
    match content, r2 with
    | _ :: _, '*' :: '*' :: tail => '*' :: content ++ '*' :: boldStarGo fuel tail
    | _, _ => '*' :: boldStarGo fuel ('*' :: rest)
  | fuel + 1, c :: rest => c :: boldStarGo fuel rest

/-- Rule `__x__ -> *x*`: regex `__([^_]+)__` replaced by `*$1*`. -/
def boldUnderGo : Nat → List Char → List Char
  | 0, l => l
  | _ + 1, [] => []
  | fuel + 1, '_' :: '_' :: rest =>
    let content := rest.takeWhile (fun c => c != '_')
    let r2 := rest.dropWhile (fun c => c != '_')
    match content, r2 with
    | _ :: _, '_' :: '_' :: tail => '*' :: content ++ '*' :: boldUnderGo fuel tail
    | _, _ => '_' :: boldUnderGo fuel ('_' :: rest)
  | fuel + 1, c :: rest => c :: boldUnderGo fuel rest

/-- One header rewrite on one line: `^pat(.+)$` replaced by `*$1*`
where `pat` is a literal header marker such as three hashes and a
space.  `.+` needs a nonempty remainder. -/
def applyHeader (pat line : List Char) : List Char :=
  if startsWithL pat line && !(line.drop pat.length).isEmpty then
    '*' :: line.drop pat.length ++ ['*']
  else line

/-- The three sequential header passes of the source, on one line:
first three hashes, then two, then one. -/
def headerLine (line : List Char) : List Char :=
  applyHeader "# ".data (applyHeader "## ".data (applyHeader "### ".data line))

/-- Unordered-list rule on one line: `^[\*\-] (.+)$` replaced by a
bullet glyph and the rest. -/
def ulLine (line : List Char) : List Char :=
  match line with
  | m :: ' ' :: rest =>
    if (m == '*' || m == '-') && !rest.isEmpty then '•' :: ' ' :: rest else line
  | _ => line

/-- Ordered-list rule on one line: one or more digits, a dot, a space,
a nonempty rest. -/
def olLine (line : List Char) : List Char :=
  let ds := line.takeWhile Char.isDigit
  let r := line.dropWhile Char.isDigit
  match ds, r with
  | _ :: _, '.' :: ' ' :: rest => if rest.isEmpty then line else '•' :: ' ' :: rest
  | _, _ => line

/-- Emphasis rule for a single delimiter `d`: regex
`(?<!^)d([^d\n]+)d` replaced by `_$1_`, global.  The lookbehind has no
`m` flag in the source, so only a match starting at position zero of
the whole string is excluded; `atStart` records that position. -/
def emphGo (d : Char) : Nat → Bool → List Char → List Char
  | 0, _, l => l
  | _ + 1, _, [] => []
  | fuel + 1, atStart, c :: rest =>
    if c == d && !atStart then
      let content := rest.takeWhile (fun x => x != d && x != '\n')
      let r2 := rest.dropWhile (fun x => x != d && x != '\n')
      match content, r2 with
      | _ :: _, e :: tail =>
        if e == d then '_' :: content ++ '_' :: emphGo d fuel false tail
        else c :: emphGo d fuel false rest
      | _, _ => c :: emphGo d fuel false rest
    else c :: emphGo d fuel false rest

/-- Lazy search for the closing double tilde of `~~(.+?)~~`: consume
at least one non-newline content character, stopping at the earliest
following `~~`. -/
def strikeClose : Nat → List Char → List Char → Option (List Char × List Char)
  | 0, _, _ => none
  | _ + 1, _, [] => none
  | _ + 1, _, '\n' :: _ => none
  | fuel + 1, acc, c :: rest =>
    match rest with
    | '~' :: '~' :: tail => some ((c :: acc).reverse, tail)
    | _ => strikeClose fuel (c :: acc) rest

/-- Strikethrough rule: `~~(.+?)~~` replaced by `~$1~`, global. -/
def strikeGo : Nat → List Char → List Char
  | 0, l => l
  | _ + 1, [] => []
  | fuel + 1, '~' :: '~' :: rest =>
    match strikeClose rest.length [] rest with
    | some (content, tail) => '~' :: content ++ '~' :: strikeGo fuel tail
    | none => '~' :: strikeGo fuel ('~' :: rest)
  | fuel + 1, c :: rest => c :: strikeGo fuel rest

/-- Lazy search for the closing fence of a code block
(`[\s\S]*?` then three backticks): content may be empty and may
contain newlines; the earliest closing fence wins. -/
def fenceClose : Nat → List Char → List Char → Option (List Char × List Char)
  | 0, _, _ => none
  | fuel + 1, acc, l =>
    match l with
    | '`' :: '`' :: '`' :: tail => some (acc.reverse, tail)
    | c :: rest => fenceClose fuel (c :: acc) rest
    | [] => none

/-- JavaScript `\w`: ASCII letters, digits, underscore. -/
def isWordChar (c : Char) : Bool := c.isAlphanum || c == '_'

/-- The inner rewrite applied to a matched code block: every
occurrence of a fence optionally followed by word characters and one
newline collapses to a bare fence.  On the matched block this strips
the maximal word-character run and an optional newline after the
opening fence (the closing fence is replaced by itself). -/
def stripFenceHead (content : List Char) : List Char :=
  let rest := content.dropWhile isWordChar
  match rest with
  | '\n' :: tail => tail
  | _ => rest

/-- Code-block rule: the outer regex matches a fence, a lazy body, a
fence; each match is rewritten by `stripFenceHead` on its body. -/
def codeGo : Nat → List Char → List Char
  | 0, l => l
  | _ + 1, [] => []
  | fuel + 1, '`' :: '`' :: '`' :: rest =>
    match fenceClose rest.length [] rest with
    | some (content, tail) =>
      '`' :: '`' :: '`' :: stripFenceHead content ++ '`' :: '`' :: '`' :: codeGo fuel tail
    | none => '`' :: codeGo fuel ('`' :: '`' :: rest)
  | fuel + 1, c :: rest => c :: codeGo fuel rest

/-- Lazy search for the closing backtick of an inline code span
(content is one or more non-newline characters). -/
def inlineClose : Nat → List Char → List Char → Option (List Char × List Char)
  | 0, _, _ => none
  | _ + 1, _, [] => none
  | _ + 1, _, '\n' :: _ => none
  | fuel + 1, acc, c :: rest =>
    match rest with
    | '`' :: tail => some ((c :: acc).reverse, tail)
    | _ => inlineClose fuel (c :: acc) rest

/-- Inline-code rule: each match is replaced by itself (the source
replacement reproduces the delimiters and content). -/
def inlineGo : Nat → List Char → List Char
  | 0, l => l
  | _ + 1, [] => []
  | fuel + 1, '`' :: rest =>
    match inlineClose rest.length [] rest with
    | some (content, tail) => '`' :: content ++ '`' :: inlineGo fuel tail
    | none => '`' :: inlineGo fuel rest
  | fuel + 1, c :: rest => c :: inlineGo fuel rest

/-- Link rule: `[text](url)` becomes `<url|text>`; text is one or more
non-bracket characters, url one or more non-parenthesis characters. -/
def linksGo : Nat → List Char → List Char
  | 0, l => l
  | _ + 1, [] => []
  | fuel + 1, '[' :: rest =>
    let txt := rest.takeWhile (fun c => c != ']')
    let r1 := rest.dropWhile (fun c => c != ']')
    match txt, r1 with
    | _ :: _, ']' :: '(' :: r2 =>
      let url := r2.takeWhile (fun c => c != ')')
      let r3 := r2.dropWhile (fun c => c != ')')
      match url, r3 with
      | _ :: _, ')' :: tail => '<' :: url ++ '|' :: txt ++ '>' :: linksGo fuel tail
      | _, _ => '[' :: linksGo fuel rest
    | _, _ => '[' :: linksGo fuel rest
  | fuel + 1, c :: rest => c :: linksGo fuel rest

/-- Blockquote rule on one line: `^> (.+)$` replaced by `> $1`, which
reproduces the match. -/
def quoteLine (line : List Char) : List Char :=
  match line with
  | '>' :: ' ' :: rest => if rest.isEmpty then line else '>' :: ' ' :: rest
  | _ => line

/-- Collapse three or more consecutive newlines to exactly two
(`\n{3,}` is greedy, so a maximal run collapses as one match). -/
def collapseGo : Nat → List Char → List Char
  | 0, l => l
  | _ + 1, [] => []
  | fuel + 1, '\n' :: '\n' :: '\n' :: rest =>
    '\n' :: '\n' :: collapseGo fuel (rest.dropWhile (fun c => c == '\n'))
  | fuel + 1, c :: rest => c :: collapseGo fuel rest

/-- Run a fueled scanner with fuel equal to the input length. -/
def runStage (f : Nat → List Char → List Char) (l : List Char) : List Char :=
  f l.length l

/-- The full transformer of src/utils/markdown.ts, rules in source
order: bold (asterisk then underscore), headers, lists (unordered then
ordered), italics (asterisk then underscore), strikethrough, code
blocks, inline code, links, blockquotes, newline collapsing. -/
def markdownToSlack (markdown : String) : String :=
  let s1 := runStage boldStarGo markdown.data
  let s2 := runStage boldUnderGo s1
  let s3 := mapLines headerLine s2
  let s4 := mapLines (fun l => olLine (ulLine l)) s3
  let s5 := emphGo '*' s4.length true s4
  let s6 := emphGo '_' s5.length true s5
  let s7 := runStage strikeGo s6
  let s8 := runStage codeGo s7
  let s9 := runStage inlineGo s8
  let s10 := runStage linksGo s9
  let s11 := mapLines quoteLine s10
  ⟨runStage collapseGo s11⟩

/-! ## cleanMessage (src/handlers/slack.ts)

`cleanMessage` removes every match of the regex for a bot-mention
token (an at-sign wrapped token of uppercase letters and digits inside
angle brackets), then the first occurrence of the literal marker
`[DEBUG]` (a string-argument `replace` replaces only the first
occurrence), then trims surrounding whitespace. -/

/-- A character allowed inside a mention token: `[A-Z0-9]`. -/
def isMentionChar (c : Char) : Bool := c.isUpper || c.isDigit

/-- Scanner state for the mention-removal regex: either scanning
normally, or having consumed an opening angle bracket, or inside the
token run after the at-sign (`acc` holds the run so far, reversed).
A failed attempt flushes the buffered characters verbatim; this is
equivalent to the advance-one-character behaviour of the regex engine
because no interior character of a buffered attempt can start a
match (only an opening angle bracket can). -/
inductive MState where
  | normal
  | seenLt
  | inRun (acc : List Char)

/-- Global removal of every mention-token match, as a one-pass state
machine over the input. -/
def remMGo : MState → List Char → List Char
  | .normal, [] => []
  | .normal, c :: rest =>
    if c == '<' then remMGo .seenLt rest else c :: remMGo .normal rest
  | .seenLt, [] => ['<']
  | .seenLt, c :: rest =>
    if c == '@' then remMGo (.inRun []) rest
    else if c == '<' then '<' :: remMGo .seenLt rest
    else '<' :: c :: remMGo .normal rest
  | .inRun acc, [] => '<' :: '@' :: acc.reverse
  | .inRun acc, c :: rest =>
    if isMentionChar c then remMGo (.inRun (c :: acc)) rest
    else if c == '>' then
      if acc.isEmpty then '<' :: '@' :: '>' :: remMGo .normal rest
      else remMGo .normal rest
    else if c == '<' then '<' :: '@' :: acc.reverse ++ remMGo .seenLt rest
    else '<' :: '@' :: acc.reverse ++ c :: remMGo .normal rest

/-- Remove the first occurrence of the literal `[DEBUG]`; the
remainder after the removed occurrence is kept verbatim. -/
def stripDebugL : List Char → List Char
  | [] => []
  | c :: rest =>
    if startsWithL "[DEBUG]".data (c :: rest) then rest.drop 6
    else c :: stripDebugL rest

/-- JavaScript trimmed whitespace (the ASCII cases). -/
def isJsWhitespace (c : Char) : Bool :=
  c == ' ' || c == '\t' || c == '\n' || c == '\r' || c == '\x0b' || c == '\x0c'

/-- Trim whitespace from both ends. -/
def trimBothL (l : List Char) : List Char :=
  ((l.dropWhile isJsWhitespace).reverse.dropWhile isJsWhitespace).reverse

/-- `SlackMessageHandler.cleanMessage`. -/
def cleanMessage (text : String) : String :=
  ⟨trimBothL (stripDebugL (remMGo .normal text.data))⟩

/-! ## The turn pipeline (SlackMessageHandler.handleMessage)

The handler is embedded as a pure function from the inbound message
context, the key/value store contents, and the per-turn results of the
external calls (reaction attach/detach, topic creation, message post)
to the list of side effects the turn performs, in order, together with
the resulting store contents.  A rejected awaited call is modelled by
an `Option String` carrying the thrown message: the surrounding
`try`/`catch` of the source then runs the catch block (best-effort
feedback removal, then a generic error reply). -/

/-- Inbound message context (the `MessageContext` of src/types.ts,
without the opaque reply capability, which is modelled by the event
trace). -/
structure MsgCtx where
  text : String
  channel : String
  thread_ts : Option String
  ts : String

/-- A remote error surfaced by the conversation client: HTTP status
and body. -/
structure RemoteErr where
  status : Nat
  error : String
deriving DecidableEq

/-- A successful remote answer: display text plus citation sources.
Modelled from the spec: the MintlifyService response shape
(src/services/mintlify.ts is absent from the sources); section 4.2
gives `postTurn(session, text) -> {text, sources?} | RemoteError`. -/
structure MsgAnswer where
  text : String
  sources : List String
deriving DecidableEq

/-- The per-turn outcomes of the external calls.  `addFail` and
`removeFail` carry the thrown message when the reaction attach or
detach rejects; the two remote calls either return a value or a typed
remote error. -/
structure TurnEnv where
  addFail : Option String
  removeFail : Option String
  createTopicResult : Except RemoteErr String
  sendMessageResult : Except RemoteErr MsgAnswer

/-- One observable side effect of a turn, in order of occurrence.
Reaction events record the attempt (a failed attempt is still an
attempt). -/
inductive Ev where
  | reactAdd
  | kvGet (key : String) (value : Option String)
  | createTopic
  | kvPut (key value : String)
  | sendMessage (topic text : String)
  | say (text thread : String)
  | reactRemove
deriving DecidableEq, Repr

/-- The key/value store contents (Session Store). -/
abbrev KV := List (String × String)

/-- Store lookup. -/
def kvLookup (kv : KV) (k : String) : Option String :=
  match kv with
  | [] => none
  | (k2, v) :: rest => if k2 == k then some v else kvLookup rest k

/-- JavaScript truthiness of a nullable string. -/
def truthyS : Option String → Bool
  | none => false
  | some s => !(s == "")

/-- JavaScript `a || b` on a nullable string. -/
def orElseStr (o : Option String) (alt : String) : String :=
  match o with
  | some s => if s == "" then alt else s
  | none => alt

/-- `const threadId = thread_ts || ts`. -/
def threadIdOf (ctx : MsgCtx) : String := orElseStr ctx.thread_ts ctx.ts

/-- The store key derived in `handleMessage`:
`thread:` then channel then `:` then thread id. -/
def storeKey (ctx : MsgCtx) : String :=
  "thread:" ++ ctx.channel ++ ":" ++ threadIdOf ctx

/-- The key displayed by `buildDebugInfo`:
`mintlify-thread:` then channel then `:` then thread id. -/
def debugKey (ctx : MsgCtx) : String :=
  "mintlify-thread:" ++ ctx.channel ++ ":" ++ threadIdOf ctx

/-- `SlackMessageHandler.buildDebugInfo`. -/
def buildDebugInfo (context : MsgCtx) : List String :=
  let threadId := threadIdOf context
  ["🔍 *DEBUG MODE ENABLED*",
   "Channel: " ++ context.channel,
   "Thread TS: " ++ orElseStr context.thread_ts "None (new thread)",
   "Message TS: " ++ context.ts,
   "Thread ID: " ++ threadId,
   "KV Key: " ++ debugKey context]
  ++ (if containsS context.text "Previous conversation in this thread:" then
        ["Thread history included: Yes"] else [])

/-- Modelled from the spec: `MintlifyService.formatSources`
(src/services/mintlify.ts is absent from the sources); section 4.4
asks for a formatted 1-indexed citation list, each citation a
clickable index. -/
def formatSources (sources : List String) : String :=
  String.intercalate " " (sources.enum.map (fun p => "<" ++ p.2 ++ "|" ++ toString (p.1 + 1) ++ ">"))

/-- The source error paths `await reactions.remove(...); await say(...)`:
if the removal rejects, the outer catch runs (one more removal attempt,
swallowed, then a generic error reply) and the intended reply is never
sent. -/
def errReply (env : TurnEnv) (failText threadId : String) : List Ev :=
  match env.removeFail with
  | none => [Ev.reactRemove, Ev.say failText threadId]
  | some m => [Ev.reactRemove, Ev.reactRemove, Ev.say ("Error: " ++ m) threadId]

/-- The tail of a turn after the session is resolved: clean the text,
post it, and either reply with the transformed answer (plus sources
and debug prefix) or with the remote-error reply. -/
def sendPhase (env : TurnEnv) (ctx : MsgCtx) (threadId topicId : String)
    (isDebug : Bool) (debug : List String) : List Ev :=
  let cleaned := cleanMessage ctx.text
  let debug2 := if isDebug then debug ++
      ["Original message: \"" ++ ctx.text ++ "\"",
       "Cleaned message: \"" ++ cleaned ++ "\"",
       "Sending to topic: " ++ topicId]
    else debug
  Ev.sendMessage topicId cleaned ::
  (match env.sendMessageResult with
   | .error e =>
     errReply env
       ("Failed to process message (" ++ toString e.status ++ "): " ++ e.error) threadId
   | .ok ans =>
     let formatted := markdownToSlack ans.text
     let debug3 := if isDebug && ans.sources.length > 0 then
         debug2 ++ ["Found " ++ toString ans.sources.length ++ " sources"]
       else debug2
     let withSources := if ans.sources.length > 0 then
         formatted ++ "\n\n" ++ formatSources ans.sources
       else formatted
     let debug4 := if isDebug then debug3 ++ ["\n*Response sent successfully*"] else debug3
     let finalText := if isDebug then
         String.intercalate "\n" debug4 ++ "\n\n---\n\n" ++ withSources
       else withSources
     Ev.say finalText threadId ::
     (match env.removeFail with
      | none => [Ev.reactRemove]
      | some m => [Ev.reactRemove, Ev.reactRemove, Ev.say ("Error: " ++ m) threadId]))

/-- `SlackMessageHandler.handleMessage`: the whole turn.  Returns the
ordered side effects and the resulting store contents.  A rejected
reaction attach jumps straight to the catch block: removal attempt,
generic error reply, return. -/
def handleMessage (env : TurnEnv) (kv : KV) (ctx : MsgCtx) : List Ev × KV :=
  let threadId := threadIdOf ctx
  let kvKey := storeKey ctx
  let isDebug := containsS ctx.text "[DEBUG]"
  let debug0 := if isDebug then buildDebugInfo ctx else []
  match env.addFail with
  | some m => ([Ev.reactAdd, Ev.reactRemove, Ev.say ("Error: " ++ m) threadId], kv)
  | none =>
    let topic0 := kvLookup kv kvKey
    let debug1 := if isDebug then
        debug0 ++ ["Existing Topic ID: " ++ orElseStr topic0 "None (will create new)"]
      else debug0
    if truthyS topic0 then
      (Ev.reactAdd :: Ev.kvGet kvKey topic0 ::
        sendPhase env ctx threadId (topic0.getD "") isDebug debug1, kv)
    else
      let debug2 := if isDebug then debug1 ++ ["Creating new topic..."] else debug1
      match env.createTopicResult with
      | .error e =>
        (Ev.reactAdd :: Ev.kvGet kvKey topic0 :: Ev.createTopic ::
          errReply env
            ("Failed to create conversation (" ++ toString e.status ++ "): " ++ e.error)
            threadId, kv)
      | .ok tid =>
        let debug3 := if isDebug then
            (debug2 ++ ["Created Topic ID: " ++ tid]) ++ ["Stored in KV with 7-day TTL"]
          else debug2
        (Ev.reactAdd :: Ev.kvGet kvKey topic0 :: Ev.createTopic :: Ev.kvPut kvKey tid ::
          sendPhase env ctx threadId tid isDebug debug3, (kvKey, tid) :: kv)

/-! ## The event router (src/index.ts) -/

/-- A plain message event payload (the fields the router reads). -/
structure MsgPayload where
  text : String
  channel : String
  thread_ts : Option String
  ts : String
  subtype : Option String

/-- The admission decision of the `message` event handler: nonempty
text, inside a thread, not a bot message, and the store must hold a
truthy value under the gate key `mintlify-thread:` channel `:`
thread root. -/
def messageForwarded (kv : KV) (p : MsgPayload) : Bool :=
  match p.thread_ts with
  | none => false
  | some t =>
    if p.text == "" || t == "" then false
    else if p.subtype == some "bot_message" then false
    else truthyS (kvLookup kv ("mintlify-thread:" ++ p.channel ++ ":" ++ t))

/-! ## Event predicates and counting helpers -/

/-- Is the event a topic creation? -/
def isCreateEv : Ev → Bool
  | .createTopic => true
  | _ => false

/-- Is the event a store write? -/
def isPutEv : Ev → Bool
  | .kvPut _ _ => true
  | _ => false

/-- Is the event a store write under key `k`? -/
def isPutForEv (k : String) : Ev → Bool
  | .kvPut k2 _ => k2 == k
  | _ => false

/-- Is the event a store read? -/
def isGetEv : Ev → Bool
  | .kvGet _ _ => true
  | _ => false

/-- Is the event a remote message post? -/
def isSendEv : Ev → Bool
  | .sendMessage _ _ => true
  | _ => false

/-- Is the event a visible reply? -/
def isSayEv : Ev → Bool
  | .say _ _ => true
  | _ => false

/-- The texts of the visible replies of a trace, in order. -/
def saysOf (tr : List Ev) : List String :=
  tr.filterMap (fun e => match e with | .say t _ => some t | _ => none)

/-! ## Substring lemmas -/

theorem startsWithL_self_append (p y : List Char) : startsWithL p (p ++ y) = true := by
  induction p with
  | nil => rfl
  | cons c cs ih => simp [startsWithL, ih]

theorem containsL_nil_pat (l : List Char) : containsL [] l = true := by
  cases l <;> simp [containsL, List.isEmpty, startsWithL]

/-- A list that exhibits `p` as a middle segment contains `p`. -/
theorem containsL_middle (x p y : List Char) : containsL p (x ++ (p ++ y)) = true := by
  induction x with
  | nil =>
    cases p with
    | nil => exact containsL_nil_pat y
    | cons a as =>
      simp only [List.nil_append, containsL, Bool.or_eq_true]
      exact Or.inl (startsWithL_self_append (a :: as) y)
  | cons c cs ih => simp [containsL, ih]

/-! ## Lemmas about the carriers of cleanMessage -/

theorem remMGo_plain_append (u l : List Char) (hu : ∀ c ∈ u, c ≠ '<') :
    remMGo .normal (u ++ l) = u ++ remMGo .normal l := by
  induction u with
  | nil => rfl
  | cons c cs ih =>
    have hc : c ≠ '<' := hu c (List.mem_cons_self c cs)
    have hcs : ∀ x ∈ cs, x ≠ '<' := fun x hx => hu x (List.mem_cons_of_mem c hx)
    simp [remMGo, hc, ih hcs]

theorem remMGo_inRun_elim (id : List Char) :
    ∀ (acc l : List Char), (∀ c ∈ id, isMentionChar c = true) →
      (acc ≠ [] ∨ id ≠ []) →
      remMGo (.inRun acc) (id ++ '>' :: l) = remMGo .normal l := by
  induction id with
  | nil =>
    intro acc l _ hne
    have hacc : acc ≠ [] := by
      rcases hne with h | h
      · exact h
      · exact absurd rfl h
    have hie : acc.isEmpty = false := by
      cases acc with
      | nil => exact absurd rfl hacc
      | cons _ _ => rfl
    have hmc : isMentionChar '>' = false := by decide
    simp [remMGo, hmc, hie]
  | cons d ds ih =>
    intro acc l hid hne
    have hd : isMentionChar d = true := hid d (List.mem_cons_self d ds)
    have hds : ∀ c ∈ ds, isMentionChar c = true :=
      fun c hc => hid c (List.mem_cons_of_mem d hc)
    have step : remMGo (.inRun acc) ((d :: ds) ++ '>' :: l)
        = remMGo (.inRun (d :: acc)) (ds ++ '>' :: l) := by
      simp [remMGo, hd]
    rw [step, ih (d :: acc) l hds (Or.inl (List.cons_ne_nil d acc))]

/-- Removing mentions eats one well-formed mention token. -/
theorem remMGo_token (id l : List Char)
    (hid : ∀ c ∈ id, isMentionChar c = true) (hne : id ≠ []) :
    remMGo .normal ('<' :: '@' :: (id ++ '>' :: l)) = remMGo .normal l := by
  have h1 : remMGo .normal ('<' :: '@' :: (id ++ '>' :: l))
      = remMGo (.inRun []) (id ++ '>' :: l) := by
    simp [remMGo]
  rw [h1, remMGo_inRun_elim id [] l hid (Or.inr hne)]

theorem stripDebugL_plain_append (u l : List Char) (hu : ∀ c ∈ u, c ≠ '[') :
    stripDebugL (u ++ l) = u ++ stripDebugL l := by
  induction u with
  | nil => rfl
  | cons c cs ih =>
    have hc : c ≠ '[' := hu c (List.mem_cons_self c cs)
    have hcs : ∀ x ∈ cs, x ≠ '[' := fun x hx => hu x (List.mem_cons_of_mem c hx)
    have hsw : startsWithL "[DEBUG]".data (c :: (cs ++ l)) = false := by
      have : ('[' == c) = false := by
        cases h : '[' == c with
        | false => rfl
        | true => exact absurd (eq_comm.mp (eq_of_beq h)) hc
      simp [startsWithL, this]
    simp [stripDebugL, hsw, ih hcs]

theorem stripDebugL_hit (l : List Char) :
    stripDebugL ("[DEBUG]".data ++ l) = l := by
  simp [stripDebugL, startsWithL]

/-- String append acts on the underlying character lists. -/
theorem sdata_append (a b : String) : (a ++ b).data = a.data ++ b.data := rfl

/-- Mentions removed from a string of only safe characters change nothing. -/
theorem remMGo_plain_id (u : List Char) (hu : ∀ c ∈ u, c ≠ '<') :
    remMGo .normal u = u := by
  have h := remMGo_plain_append u [] hu
  simpa [remMGo] using h

/-- A chunk of text free of the characters that could start a mention
token or the debug marker. -/
abbrev plainChunk (u : String) : Prop := ∀ c ∈ u.data, c ≠ '<' ∧ c ≠ '['

/-- A well-formed mention id: nonempty, uppercase letters and digits. -/
abbrev goodId (id : String) : Prop :=
  id.data ≠ [] ∧ ∀ c ∈ id.data, isMentionChar c = true

/-- Interleaving of plain chunks and mention tokens. -/
def mentionsBlock : List (String × String) → String
  | [] => ""
  | (u, id) :: rest => u ++ "<@" ++ id ++ ">" ++ mentionsBlock rest

/-- The same interleaving with every mention token deleted. -/
def plainBlock : List (String × String) → String
  | [] => ""
  | (u, _) :: rest => u ++ plainBlock rest

theorem remMGo_block_aux (ps : List (String × String)) :
    ∀ l : List Char, (∀ p ∈ ps, plainChunk p.1 ∧ goodId p.2) →
      remMGo .normal ((mentionsBlock ps).data ++ l)
        = (plainBlock ps).data ++ remMGo .normal l := by
  induction ps with
  | nil => intro l _; rfl
  | cons p ps ih =>
    intro l hp
    obtain ⟨u, id⟩ := p
    obtain ⟨hu, hid⟩ := hp (u, id) (List.mem_cons_self _ _)
    have hps : ∀ q ∈ ps, plainChunk q.1 ∧ goodId q.2 :=
      fun q hq => hp q (List.mem_cons_of_mem _ hq)
    have h1 : "<@".data = ['<', '@'] := rfl
    have h2 : ">".data = ['>'] := rfl
    have shape : (mentionsBlock ((u, id) :: ps)).data ++ l
        = u.data ++ ('<' :: '@' :: (id.data ++ '>' :: ((mentionsBlock ps).data ++ l))) := by
      simp [mentionsBlock, sdata_append, h1, h2, List.append_assoc]
    rw [shape, remMGo_plain_append u.data _ (fun c hc => (hu c hc).1),
        remMGo_token id.data _ hid.2 hid.1, ih l hps]
    simp [plainBlock, sdata_append, List.append_assoc]

theorem remMGo_block (ps : List (String × String)) (l : List Char)
    (hp : ∀ p ∈ ps, plainChunk p.1 ∧ goodId p.2) :
    remMGo .normal ((mentionsBlock ps).data ++ l)
      = (plainBlock ps).data ++ remMGo .normal l :=
  remMGo_block_aux ps l hp

theorem plainBlock_chars (ps : List (String × String))
    (hp : ∀ p ∈ ps, plainChunk p.1 ∧ goodId p.2) :
    ∀ c ∈ (plainBlock ps).data, c ≠ '<' ∧ c ≠ '[' := by
  induction ps with
  | nil => intro c hc; cases hc
  | cons p ps ih =>
    obtain ⟨u, id⟩ := p
    intro c hc
    have hsplit : (plainBlock ((u, id) :: ps)).data = u.data ++ (plainBlock ps).data := by
      simp [plainBlock, sdata_append]
    rw [hsplit] at hc
    rcases List.mem_append.mp hc with h | h
    · exact (hp (u, id) (List.mem_cons_self _ _)).1 c h
    · exact ih (fun q hq => hp q (List.mem_cons_of_mem _ hq)) c h

/-! ## Trace-count lemmas for the send phase -/

theorem errReply_count_create (env : TurnEnv) (t thid : String) :
    (errReply env t thid).countP isCreateEv = 0 := by
  cases h : env.removeFail <;> simp [errReply, h, isCreateEv]

theorem errReply_count_put (k : String) (env : TurnEnv) (t thid : String) :
    (errReply env t thid).countP (isPutForEv k) = 0 := by
  cases h : env.removeFail <;> simp [errReply, h, isPutForEv]

theorem sendPhase_count_create (env : TurnEnv) (ctx : MsgCtx)
    (thid tid : String) (flag : Bool) (dbg : List String) :
    (sendPhase env ctx thid tid flag dbg).countP isCreateEv = 0 := by
  cases hs : env.sendMessageResult with
  | error e =>
    simp [sendPhase, hs, isCreateEv, errReply_count_create]
  | ok ans =>
    cases hr : env.removeFail <;> simp [sendPhase, hs, hr, isCreateEv]

theorem sendPhase_count_put (k : String) (env : TurnEnv) (ctx : MsgCtx)
    (thid tid : String) (flag : Bool) (dbg : List String) :
    (sendPhase env ctx thid tid flag dbg).countP (isPutForEv k) = 0 := by
  cases hs : env.sendMessageResult with
  | error e =>
    simp [sendPhase, hs, isPutForEv, errReply_count_put]
  | ok ans =>
    cases hr : env.removeFail <;> simp [sendPhase, hs, hr, isPutForEv]

/-! ## Concrete fixtures for the claim instances -/

/-- A turn environment in which every external call succeeds. -/
def envOk : TurnEnv :=
  { addFail := none, removeFail := none,
    createTopicResult := Except.ok "T1",
    sendMessageResult := Except.ok { text := "Hi", sources := [] } }

/-- A turn environment whose reaction attach rejects. -/
def env3 : TurnEnv :=
  { addFail := some "boom", removeFail := none,
    createTopicResult := Except.ok "T1",
    sendMessageResult := Except.ok { text := "Hi", sources := [] } }

/-- A turn environment whose topic creation fails with status 500. -/
def envCF : TurnEnv :=
  { addFail := none, removeFail := none,
    createTopicResult := Except.error { status := 500, error := "oops" },
    sendMessageResult := Except.ok { text := "Hi", sources := [] } }

/-- A turn environment whose message post fails with status 502. -/
def envSF : TurnEnv :=
  { addFail := none, removeFail := none,
    createTopicResult := Except.ok "T1",
    sendMessageResult := Except.error { status := 502, error := "bad" } }

/-- A plain inbound message that starts a new thread. -/
def ctx0 : MsgCtx := { text := "q", channel := "C", thread_ts := none, ts := "1.2" }

/-- The mention event that starts the thread rooted at 111.222. -/
def ctxMention : MsgCtx :=
  { text := "q", channel := "C", thread_ts := none, ts := "111.222" }

/-- The same mention carrying the debug marker. -/
def ctxDebug : MsgCtx :=
  { text := "[DEBUG] q", channel := "C", thread_ts := none, ts := "111.222" }

/-- Store contents after the mention turn stored its session. -/
def kvAfterMention : KV := (handleMessage envOk [] ctxMention).2

/-- The trace of a debug-marked turn starting from an empty store. -/
def debugTurn : List Ev := (handleMessage envOk [] ctxDebug).1

/-- The plain follow-up message in the thread rooted at 111.222. -/
def followUp : MsgPayload :=
  { text := "hi", channel := "C", thread_ts := some "111.222", ts := "111.333",
    subtype := none }

/-! ## Claims -/

/-- C1: a plain message in a thread with no stored session is not
forwarded (first conjunct, as claimed); but after a mention turn has
stored a session for the thread — visible under the handler store key
`thread:C:111.222` — the same plain message is STILL not forwarded,
because the router gate reads the key `mintlify-thread:C:111.222`,
which the handler never writes.  The second half of the claim fails on
the code: follow-ups without a mention are never admitted. -/
theorem C1_keyPrefixMismatch :
    messageForwarded [] followUp = false ∧
    kvAfterMention = [("thread:C:111.222", "T1")] ∧
    truthyS (kvLookup kvAfterMention
      (storeKey { text := "hi", channel := "C", thread_ts := some "111.222",
                  ts := "111.333" })) = true ∧
    messageForwarded kvAfterMention followUp = false := by decide

/-- C2 counterexample: the transformer is not idempotent on inputs
built from the listed constructs.  A fenced code block with a language
tag transforms to a fence whose body starts with word characters, and
a second application strips that body head; a bold span at the start
of a non-first line (only heading and bold constructs) also degrades
on the second application. -/
theorem C2_cex :
    (markdownToSlack "```js\nx\n```" = "```x\n```" ∧
     markdownToSlack (markdownToSlack "```js\nx\n```") = "``````" ∧
     markdownToSlack (markdownToSlack "```js\nx\n```") ≠ markdownToSlack "```js\nx\n```") ∧
    (markdownToSlack "x\n# **a**" = "x\n*_a_*" ∧
     markdownToSlack (markdownToSlack "x\n# **a**") = "x\n__a__" ∧
     markdownToSlack (markdownToSlack "x\n# **a**") ≠ markdownToSlack "x\n# **a**") := by
  decide

/-- C2 amended: applying the transform twice equals applying it once
on the regression inputs of spec section 8 (bold, list, link) and on
further single-construct samples (heading at the start of the input,
strikethrough with a block quote); full idempotence over all inputs
made of the listed constructs does not hold. -/
theorem C2_amendedIdempotence :
    markdownToSlack (markdownToSlack "**Hello** World") = markdownToSlack "**Hello** World" ∧
    markdownToSlack (markdownToSlack "- a\n- b") = markdownToSlack "- a\n- b" ∧
    markdownToSlack (markdownToSlack "[docs](path/to/page)") = markdownToSlack "[docs](path/to/page)" ∧
    markdownToSlack (markdownToSlack "# Head") = markdownToSlack "# Head" ∧
    markdownToSlack (markdownToSlack "~~s~~\n> q") = markdownToSlack "~~s~~\n> q" := by
  decide

/-- C3 counterexample: when the reaction attach rejects (environment
`env3`), the turn does not proceed: no store read, no session
creation, no remote call; the only reply is the generic catch-block
error, not the normal success or remote-error reply. -/
theorem C3_cex :
    handleMessage env3 [] ctx0
      = ([Ev.reactAdd, Ev.reactRemove, Ev.say "Error: boom" "1.2"], []) ∧
    (handleMessage env3 [] ctx0).1.countP isSendEv = 0 ∧
    (handleMessage env3 [] ctx0).1.countP isGetEv = 0 ∧
    (handleMessage env3 [] ctx0).1.countP isCreateEv = 0 := by decide

/-- C3 amended: a failure of the Processing Feedback attach step is
caught by the turn's generic handler and aborts the turn before
session resolution and the remote call; a best-effort feedback removal
is attempted, a single generic error reply is emitted in-thread, and
the Session Store is left unchanged. -/
theorem C3_attachFailureAborts (env : TurnEnv) (kv : KV) (ctx : MsgCtx) (m : String)
    (h : env.addFail = some m) :
    handleMessage env kv ctx
      = ([Ev.reactAdd, Ev.reactRemove, Ev.say ("Error: " ++ m) (threadIdOf ctx)], kv) := by
  simp [handleMessage, h]

theorem C3_attachFailureAborts_witness :
    handleMessage env3 [] ctx0
      = ([Ev.reactAdd, Ev.reactRemove, Ev.say ("Error: " ++ "boom") (threadIdOf ctx0)], []) :=
  C3_attachFailureAborts env3 [] ctx0 "boom" rfl

/-- C4: when the session must be created and the creation call fails,
the store is returned unchanged, no store write occurs, and the turn
ends with feedback removal followed by the in-thread error reply
carrying the remote status and body. -/
theorem C4_createFailNoPersist (env : TurnEnv) (kv : KV) (ctx : MsgCtx) (e : RemoteErr)
    (hAdd : env.addFail = none) (hRem : env.removeFail = none)
    (hTop : truthyS (kvLookup kv (storeKey ctx)) = false)
    (hCreate : env.createTopicResult = Except.error e) :
    handleMessage env kv ctx
      = ([Ev.reactAdd, Ev.kvGet (storeKey ctx) (kvLookup kv (storeKey ctx)), Ev.createTopic,
          Ev.reactRemove,
          Ev.say ("Failed to create conversation (" ++ toString e.status ++ "): " ++ e.error)
            (threadIdOf ctx)], kv) ∧
    (∀ k v, Ev.kvPut k v ∉ (handleMessage env kv ctx).1) := by
  have htr : handleMessage env kv ctx
      = ([Ev.reactAdd, Ev.kvGet (storeKey ctx) (kvLookup kv (storeKey ctx)), Ev.createTopic,
          Ev.reactRemove,
          Ev.say ("Failed to create conversation (" ++ toString e.status ++ "): " ++ e.error)
            (threadIdOf ctx)], kv) := by
    simp [handleMessage, hAdd, hTop, hCreate, errReply, hRem]
  refine ⟨htr, ?_⟩
  intro k v
  rw [htr]
  simp

theorem C4_createFailNoPersist_witness :
    handleMessage envCF [] ctx0
      = ([Ev.reactAdd, Ev.kvGet (storeKey ctx0) (kvLookup [] (storeKey ctx0)), Ev.createTopic,
          Ev.reactRemove,
          Ev.say ("Failed to create conversation (" ++ toString (500 : Nat) ++ "): " ++ "oops")
            (threadIdOf ctx0)], []) :=
  (C4_createFailNoPersist envCF [] ctx0 { status := 500, error := "oops" } rfl rfl rfl rfl).1

/-- C5: with the store holding nothing truthy for the thread key, a
successful mention turn performs exactly one topic creation and
exactly one store write under that key, and the created session is
retrievable afterwards; with a session already stored, a turn performs
zero topic creations. -/
theorem C5_sessionCreation (env : TurnEnv) (kv : KV) (ctx : MsgCtx)
    (hAdd : env.addFail = none) :
    (∀ tid : String, truthyS (kvLookup kv (storeKey ctx)) = false →
        env.createTopicResult = Except.ok tid →
        ((handleMessage env kv ctx).1.countP isCreateEv = 1 ∧
         (handleMessage env kv ctx).1.countP (isPutForEv (storeKey ctx)) = 1 ∧
         kvLookup (handleMessage env kv ctx).2 (storeKey ctx) = some tid)) ∧
    (truthyS (kvLookup kv (storeKey ctx)) = true →
        (handleMessage env kv ctx).1.countP isCreateEv = 0) := by
  constructor
  · intro tid hTop hC
    refine ⟨?_, ?_, ?_⟩ <;>
      simp [handleMessage, hAdd, hTop, hC, List.countP_cons, isCreateEv, isPutForEv,
            sendPhase_count_create, sendPhase_count_put, kvLookup]
  · intro hTop
    simp [handleMessage, hAdd, hTop, List.countP_cons, isCreateEv, sendPhase_count_create]

theorem C5_sessionCreation_witness :
    ((handleMessage envOk [] ctx0).1.countP isCreateEv = 1 ∧
     (handleMessage envOk [] ctx0).1.countP (isPutForEv (storeKey ctx0)) = 1 ∧
     kvLookup (handleMessage envOk [] ctx0).2 (storeKey ctx0) = some "T1") ∧
    (handleMessage envOk [("thread:C:1.2", "T0")] ctx0).1.countP isCreateEv = 0 :=
  ⟨(C5_sessionCreation envOk [] ctx0 rfl).1 "T1" rfl rfl,
   (C5_sessionCreation envOk [("thread:C:1.2", "T0")] ctx0 rfl).2 (by decide)⟩

/-- C6: the italics rule converts an emphasis span at the start of a
non-first line (the lookbehind has no multiline flag, so only the
start of the whole string is excluded); only a span at position zero
of the input is left unconverted. -/
theorem C6_lineStartItalicized :
    markdownToSlack "a\n*x*" = "a\n_x_" ∧
    markdownToSlack "*x*" = "*x*" := by decide

/-- C7: the rewrite rules that run before the code-block rule alter
text inside a fence body: the heading and italics rules turn the body
line of the fenced block into platform italics, and the newline after
the opening fence is stripped, so the body is not preserved. -/
theorem C7_fenceBodyAltered :
    markdownToSlack "```\n# x\n```" = "```_x_\n```" ∧
    containsS (markdownToSlack "```\n# x\n```") "# x" = false := by decide

/-- C8: when the remote message post fails, the turn emits exactly one
visible reply, that reply is the in-thread error reply carrying the
remote status, and the trace ends with the feedback removal directly
followed by that reply. -/
theorem C8_postTurnFailure (env : TurnEnv) (kv : KV) (ctx : MsgCtx) (e : RemoteErr)
    (hAdd : env.addFail = none) (hRem : env.removeFail = none)
    (hSend : env.sendMessageResult = Except.error e)
    (hres : truthyS (kvLookup kv (storeKey ctx)) = true ∨
            ∃ tid, env.createTopicResult = Except.ok tid) :
    saysOf (handleMessage env kv ctx).1
        = ["Failed to process message (" ++ toString e.status ++ "): " ++ e.error] ∧
    (handleMessage env kv ctx).1.reverse.take 2
        = [Ev.say ("Failed to process message (" ++ toString e.status ++ "): " ++ e.error)
             (threadIdOf ctx), Ev.reactRemove] ∧
    Ev.reactRemove ∈ (handleMessage env kv ctx).1 ∧
    containsS ("Failed to process message (" ++ toString e.status ++ "): " ++ e.error)
        (toString e.status) = true := by
  have hcont : containsS
      ("Failed to process message (" ++ toString e.status ++ "): " ++ e.error)
      (toString e.status) = true := by
    have e1 : ("Failed to process message (" ++ toString e.status ++ "): " ++ e.error).data
        = "Failed to process message (".data
            ++ ((toString e.status).data ++ ("): " ++ e.error).data) := by
      simp [sdata_append, List.append_assoc]
    rw [containsS, e1]
    exact containsL_middle _ _ _
  rcases hres with hT | ⟨tid, hC⟩
  · refine ⟨?_, ?_, ?_, hcont⟩ <;>
      simp [handleMessage, hAdd, hT, sendPhase, hSend, errReply, hRem, saysOf]
  · cases hT2 : truthyS (kvLookup kv (storeKey ctx))
    · refine ⟨?_, ?_, ?_, hcont⟩ <;>
        simp [handleMessage, hAdd, hT2, hC, sendPhase, hSend, errReply, hRem, saysOf]
    · refine ⟨?_, ?_, ?_, hcont⟩ <;>
        simp [handleMessage, hAdd, hT2, sendPhase, hSend, errReply, hRem, saysOf]

theorem C8_postTurnFailure_witness :
    saysOf (handleMessage envSF [] ctx0).1
        = ["Failed to process message (" ++ toString (502 : Nat) ++ "): " ++ "bad"] ∧
    (handleMessage envSF [] ctx0).1.reverse.take 2
        = [Ev.say ("Failed to process message (" ++ toString (502 : Nat) ++ "): " ++ "bad")
             (threadIdOf ctx0), Ev.reactRemove] ∧
    Ev.reactRemove ∈ (handleMessage envSF [] ctx0).1 ∧
    containsS ("Failed to process message (" ++ toString (502 : Nat) ++ "): " ++ "bad")
        (toString (502 : Nat)) = true := by
  exact C8_postTurnFailure envSF [] ctx0 { status := 502, error := "bad" }
    rfl rfl rfl (Or.inr ⟨"T1", rfl⟩)

/-- C9: in a debug-marked turn the reply does begin with the
diagnostic lines, and the diagnostics contain a key line — but that
line shows `mintlify-thread:C:111.222`, while the store read and
write of the very same turn use the different key `thread:C:111.222`;
the reply nowhere states the key actually used. -/
theorem C9_debugKeyMismatch :
    (buildDebugInfo ctxDebug).contains ("KV Key: " ++ "mintlify-thread:C:111.222") = true ∧
    debugTurn.filter isGetEv = [Ev.kvGet "thread:C:111.222" none] ∧
    debugTurn.filter isPutEv = [Ev.kvPut "thread:C:111.222" "T1"] ∧
    debugKey ctxDebug ≠ storeKey ctxDebug ∧
    (saysOf debugTurn).length = 1 ∧
    (saysOf debugTurn).all
      (fun t => startsWithL "🔍 *DEBUG MODE ENABLED*".data t.data) = true ∧
    (saysOf debugTurn).all
      (fun t => containsS t "KV Key: mintlify-thread:C:111.222") = true ∧
    (saysOf debugTurn).all
      (fun t => !containsS t "KV Key: thread:C:111.222") = true := by decide

/-- C10: cleaning removes every well-formed mention token, removes
exactly the first occurrence of the debug marker (later occurrences
survive), and trims surrounding whitespace: for arbitrary interleaved
safe chunks and mention tokens around two debug markers, the result is
the mention-free text with only the first marker deleted, trimmed. -/
theorem C10_cleanMessage (ps qs : List (String × String)) (w : String)
    (hps : ∀ p ∈ ps, plainChunk p.1 ∧ goodId p.2)
    (hqs : ∀ p ∈ qs, plainChunk p.1 ∧ goodId p.2)
    (hw : ∀ c ∈ w.data, c ≠ '<') :
    cleanMessage (mentionsBlock ps ++ "[DEBUG]" ++ mentionsBlock qs ++ "[DEBUG]" ++ w)
      = ⟨trimBothL ((plainBlock ps ++ plainBlock qs ++ "[DEBUG]" ++ w).data)⟩ := by
  have hdbg : ∀ c ∈ "[DEBUG]".data, c ≠ '<' := by decide
  have key : stripDebugL (remMGo .normal
      ((mentionsBlock ps ++ "[DEBUG]" ++ mentionsBlock qs ++ "[DEBUG]" ++ w).data))
      = (plainBlock ps ++ plainBlock qs ++ "[DEBUG]" ++ w).data := by
    have e1 : (mentionsBlock ps ++ "[DEBUG]" ++ mentionsBlock qs ++ "[DEBUG]" ++ w).data
        = (mentionsBlock ps).data ++ ("[DEBUG]".data ++
            ((mentionsBlock qs).data ++ ("[DEBUG]".data ++ w.data))) := by
      simp [sdata_append, List.append_assoc]
    rw [e1, remMGo_block ps _ hps, remMGo_plain_append _ _ hdbg,
        remMGo_block qs _ hqs, remMGo_plain_append _ _ hdbg,
        remMGo_plain_id w.data hw,
        stripDebugL_plain_append _ _ (fun c hc => (plainBlock_chars ps hps c hc).2),
        stripDebugL_hit]
    simp [sdata_append, List.append_assoc]
  unfold cleanMessage
  exact congrArg (fun ll => String.mk (trimBothL ll)) key

/-- Chunk-and-id list used by the C10 witness, region one. -/
def psW : List (String × String) := [("hey ", "U1A"), ("and ", "B2")]

/-- Chunk-and-id list used by the C10 witness, region two. -/
def qsW : List (String × String) := [("mid ", "ZZ9")]

theorem C10_cleanMessage_witness :
    (cleanMessage (mentionsBlock psW ++ "[DEBUG]" ++ mentionsBlock qsW
        ++ "[DEBUG]" ++ " tail [DEBUG] x ")
      = ⟨trimBothL ((plainBlock psW ++ plainBlock qsW ++ "[DEBUG]"
        ++ " tail [DEBUG] x ").data)⟩) ∧
    cleanMessage "hey <@U1A>and <@B2>[DEBUG]mid <@ZZ9>[DEBUG] tail [DEBUG] x "
      = "hey and mid [DEBUG] tail [DEBUG] x" := by
  constructor
  · exact C10_cleanMessage psW qsW " tail [DEBUG] x " (by decide) (by decide) (by decide)
  · decide
